import Mathlib

/-!
Verification of the openclaw credential-resolution engine against its
natural-language specification.

The repository ships the specification (docs/gateway/secrets.md), the tests of
the secrets subsystem, and one implementation file
(src/infra/session-message-count.ts).  Where the implementation of a component
is not part of the sources (RefValidator, providers, BatchResolver,
SnapshotManager, keyring unlock), the definitions below are modelled from the
specification text, as flagged in each doc comment.  The definitions for
countTranscriptMessages are translated directly from
src/infra/session-message-count.ts.
-/

set_option maxRecDepth 4096

/-! ## Character classes used by the SecretRef validation rules -/

/-- Lower-case ASCII letter test, the class `[a-z]`. -/
def isLowerAlpha (c : Char) : Bool :=
  'a' ≤ c && c ≤ 'z'

/-- Upper-case ASCII letter test, the class `[A-Z]`. -/
def isUpperAlpha (c : Char) : Bool :=
  'A' ≤ c && c ≤ 'Z'

/-- ASCII digit test, the class `[0-9]`. -/
def isDigitChar (c : Char) : Bool :=
  '0' ≤ c && c ≤ '9'

/-- The class `[a-z0-9_-]` of a provider-name tail character. -/
def isProviderTail (c : Char) : Bool :=
  isLowerAlpha c || isDigitChar c || c = '_' || c = '-'

/-- The class `[A-Z0-9_]` of an env-id tail character. -/
def isEnvIdTail (c : Char) : Bool :=
  isUpperAlpha c || isDigitChar c || c = '_'

/-- The class `[A-Za-z0-9]` of an exec-id head character. -/
def isAlnum (c : Char) : Bool :=
  isLowerAlpha c || isUpperAlpha c || isDigitChar c

/-- The class `[-A-Za-z0-9._:/]` of an exec-id tail character. -/
def isExecIdTail (c : Char) : Bool :=
  isAlnum c || c = '.' || c = '_' || c = ':' || c = '/' || c = '-'

/-! ## SecretRef validation (RefValidator)

Modelled from the spec: `validate(ref) -> ValidResult | ValidationError` is a
pure function that first checks `source` is a known variant, then applies the
source-specific `provider`/`id` rules, failing with a `ValidationError` naming
the exact offending field.  The rules are: `provider` matches
`^[a-z][a-z0-9_-]{0,63}$` for every source; `id` matches
`^[A-Z][A-Z0-9_]{0,127}$` for env, is an absolute RFC6901 JSON pointer for
file, and matches `^[A-Za-z0-9][-A-Za-z0-9._:/]{0,255}$` for exec. -/

/-- The three secret source kinds of the SecretRef contract. -/
inductive Source where
  | env
  | file
  | exec
deriving DecidableEq, Repr

/-- A raw SecretRef as it arrives from configuration: all three fields are
strings, the `source` string not yet checked against the known variants. -/
structure RawRef where
  source : String
  provider : String
  id : String
deriving DecidableEq, Repr

/-- The field of a SecretRef named by a validation error. -/
inductive RefField where
  | source
  | provider
  | id
deriving DecidableEq, Repr

/-- A validation error names the exact offending field. -/
structure ValidationError where
  field : RefField
  reason : String
deriving DecidableEq, Repr

/-- Map a source string to its variant, `none` for an unknown source. -/
def sourceKind (s : String) : Option Source :=
  if s = "env" then some Source.env
  else if s = "file" then some Source.file
  else if s = "exec" then some Source.exec
  else none

/-- Test for the regex `^[a-z][a-z0-9_-]{0,63}$`: a head character in `[a-z]`
followed by at most 63 characters in `[a-z0-9_-]`. -/
def providerOk (s : String) : Bool :=
  match s.data with
  | [] => false
  | c :: cs => isLowerAlpha c && cs.length ≤ 63 && cs.all isProviderTail

/-- Test for the regex `^[A-Z][A-Z0-9_]{0,127}$`. -/
def envIdOk (s : String) : Bool :=
  match s.data with
  | [] => false
  | c :: cs => isUpperAlpha c && cs.length ≤ 127 && cs.all isEnvIdTail

/-- Test for the regex `^[A-Za-z0-9][-A-Za-z0-9._:/]{0,255}$`. -/
def execIdOk (s : String) : Bool :=
  match s.data with
  | [] => false
  | c :: cs => isAlnum c && cs.length ≤ 255 && cs.all isExecIdTail

/-- RFC6901 escape validity over a character list: every `~` must be followed
by `0` or `1`. -/
def escapesOk : List Char → Bool
  | [] => true
  | '~' :: '0' :: rest => escapesOk rest
  | '~' :: '1' :: rest => escapesOk rest
  | '~' :: _ => false
  | _ :: rest => escapesOk rest

/-- Test for an absolute RFC6901 JSON pointer: non-empty, starting with `/`,
with valid `~0`/`~1` escaping throughout. -/
def filePointerOk (s : String) : Bool :=
  match s.data with
  | '/' :: _ => escapesOk s.data
  | _ => false

/-- The id rule selected by the source kind. -/
def idOkFor (src : Source) (s : String) : Bool :=
  match src with
  | Source.env => envIdOk s
  | Source.file => filePointerOk s
  | Source.exec => execIdOk s

/-- Modelled from the spec: `validate(ref)`.  Checks `source` is a known
variant, then the provider rule, then the source-specific id rule; the first
failing check yields a `ValidationError` naming that field. -/
def validate (r : RawRef) : Except ValidationError Unit :=
  match sourceKind r.source with
  | none => Except.error ⟨RefField.source, "unknown source"⟩
  | some src =>
    if providerOk r.provider then
      if idOkFor src r.id then Except.ok ()
      else Except.error ⟨RefField.id, "id does not match the rule for this source"⟩
    else Except.error ⟨RefField.provider, "provider does not match the required pattern"⟩

/-! ## RFC6901 JSON pointer escaping and resolution (File provider)

Modelled from the spec: file ids are absolute RFC6901 JSON pointers, built by
escaping each key (`~` to `~0`, `/` to `~1`) and joined by `/`; resolution
splits on `/`, unescapes each segment, and walks the document. -/

/-- A JSON document.  Numbers keep their raw lexeme: no claim here depends on
numeric values, only on parse success and on string-valued fields. -/
inductive Json where
  | null
  | bool (b : Bool)
  | num (raw : String)
  | str (s : String)
  | arr (items : List Json)
  | obj (fields : List (String × Json))

/-- Last-wins association lookup, matching the JavaScript semantics of
duplicate keys in a parsed JSON object. -/
def lookupLast (fields : List (String × Json)) (k : String) : Option Json :=
  fields.foldl (fun acc kv => if kv.1 = k then some kv.2 else acc) none

/-- Read a top-level field of a JSON value; `none` on non-objects. -/
def Json.getField (j : Json) (k : String) : Option Json :=
  match j with
  | Json.obj fields => lookupLast fields k
  | _ => none

/-- Scalar test: everything except objects and arrays. -/
def Json.isScalar (j : Json) : Bool :=
  match j with
  | Json.obj _ => false
  | Json.arr _ => false
  | _ => true

/-- RFC6901 escaping of one reference token: `~` becomes `~0`, `/` becomes
`~1`, all other characters are kept. -/
def escSeg : List Char → List Char
  | [] => []
  | c :: rest =>
    if c = '~' then '~' :: '0' :: escSeg rest
    else if c = '/' then '~' :: '1' :: escSeg rest
    else c :: escSeg rest

/-- RFC6901 unescaping of one reference token; fails on a `~` not followed by
`0` or `1`. -/
def unescSeg : List Char → Option (List Char)
  | [] => some []
  | c :: rest =>
    if c = '~' then
      match rest with
      | [] => none
      | d :: rest2 =>
        if d = '0' then (unescSeg rest2).map (fun cs => '~' :: cs)
        else if d = '1' then (unescSeg rest2).map (fun cs => '/' :: cs)
        else none
    else (unescSeg rest).map (fun cs => c :: cs)

/-- Split a character list at every `/`; always returns at least one segment. -/
def splitSegs : List Char → List (List Char)
  | [] => [[]]
  | c :: rest =>
    if c = '/' then [] :: splitSegs rest
    else
      match splitSegs rest with
      | [] => [[c]]
      | s :: ss => (c :: s) :: ss

/-- Parse an absolute RFC6901 pointer into its unescaped reference tokens.
The empty pointer denotes the whole document; otherwise the pointer must start
with `/` and every segment must unescape. -/
def parsePointer (s : String) : Option (List String) :=
  match s.data with
  | [] => some []
  | '/' :: rest => ((splitSegs rest).mapM unescSeg).map (List.map String.mk)
  | _ => none

/-- Walk a parsed pointer through a document: each token selects an object
field; `none` when the path does not exist or hits a non-object. -/
def resolveTokens (doc : Json) : List String → Option Json
  | [] => some doc
  | k :: rest =>
    match doc with
    | Json.obj fields =>
      match lookupLast fields k with
      | some child => resolveTokens child rest
      | none => none
    | _ => none

/-- Modelled from the spec: pointer resolution of the File provider in `json`
mode — parse the id as an absolute pointer, walk the document, and fail unless
the path resolves to a scalar. -/
def resolveFilePointer (doc : Json) (ptr : String) : Option Json :=
  match parsePointer ptr with
  | none => none
  | some toks =>
    match resolveTokens doc toks with
    | some v => if v.isScalar then some v else none
    | none => none

/-! ## Env provider

Modelled from the spec: for each id the provider looks up the OS environment
variable named by the id.  If an allowlist is configured, an id not present in
it resolves to `NotAllowedError` without ever reading the variable; a missing
or empty value resolves to `MissingValueError`.  Reads of the environment are
instrumented: each resolution returns, next to its result, the list of
variable names it actually read. -/

/-- Errors of the Env provider. -/
inductive EnvError where
  | notAllowed
  | missingValue
deriving DecidableEq, Repr

/-- Env provider configuration: an optional allowlist of permitted ids. -/
structure EnvProviderConfig where
  allowlist : Option (List String)
deriving Repr

/-- Resolve one id against the environment `env`, returning the result and
the list of environment variables read while doing so. -/
def resolveEnvOne (cfg : EnvProviderConfig) (env : String → Option String)
    (i : String) : Except EnvError String × List String :=
  match cfg.allowlist with
  | some al =>
    if i ∈ al then
      match env i with
      | none => (Except.error EnvError.missingValue, [i])
      | some v => (if v = "" then Except.error EnvError.missingValue else Except.ok v, [i])
    else (Except.error EnvError.notAllowed, [])
  | none =>
    match env i with
    | none => (Except.error EnvError.missingValue, [i])
    | some v => (if v = "" then Except.error EnvError.missingValue else Except.ok v, [i])

/-- Resolve a batch of ids: the per-id result map plus the concatenated list
of environment variables read. -/
def resolveEnv (cfg : EnvProviderConfig) (env : String → Option String)
    (ids : List String) : List (String × Except EnvError String) × List String :=
  (ids.map (fun i => (i, (resolveEnvOne cfg env i).1)),
   (ids.map (fun i => (resolveEnvOne cfg env i).2)).flatten)

/-! ## Exec provider: command-path trust and spawning

Modelled from the spec: by default the configured command must be a regular
file, not a symlink; if `allowSymlinkCommand` is set, the provider resolves
the symlink to its real target path and requires that resolved path to lie
under one of the configured `trustedDirs` before execution, failing with
`SymlinkNotTrustedError` otherwise.  Spawning is instrumented as an event so
that "no subprocess is ever spawned" is a statement about the event list. -/

/-- Errors of the Exec provider that matter to the trust policy. -/
inductive ExecError where
  | symlinkNotTrusted
  | protocolError
  | missingValue
deriving DecidableEq, Repr

/-- Exec provider configuration (the fields the trust policy reads). -/
structure ExecProviderConfig where
  command : String
  args : List String
  allowSymlinkCommand : Bool
  trustedDirs : List String
deriving Repr

/-- The filesystem facts the trust check consults: whether a path is a
symlink, and the resolved real target of a path. -/
structure FsView where
  isSymlink : String → Bool
  realPath : String → String

/-- Observable side effects of one exec resolution. -/
inductive ExecEvent where
  | spawned (cmd : String) (args : List String)
deriving DecidableEq, Repr

/-- Modelled from the spec: the command-path trust check run before any
subprocess is spawned. -/
def checkCommandTrust (fs : FsView) (cfg : ExecProviderConfig) :
    Except ExecError Unit :=
  if fs.isSymlink cfg.command then
    if cfg.allowSymlinkCommand then
      if cfg.trustedDirs.any (fun d => d.isPrefixOf (fs.realPath cfg.command)) then
        Except.ok ()
      else Except.error ExecError.symlinkNotTrusted
    else Except.error ExecError.symlinkNotTrusted
  else Except.ok ()

/-- The response of an external resolver executable: per-id values and
per-id error messages. -/
structure ExecResponse where
  values : List (String × String)
  errors : List (String × String)
deriving Repr

/-- Modelled from the spec: resolve a batch of ids through the external
command.  The trust check runs first; only when it passes is the subprocess
spawned (recorded as a `spawned` event) and its response consulted.  Ids
absent from both `values` and `errors` resolve to `MissingValueError`. -/
def resolveExec (fs : FsView) (cfg : ExecProviderConfig)
    (run : List String → Option ExecResponse) (ids : List String) :
    Except ExecError (List (String × Except ExecError String)) × List ExecEvent :=
  match checkCommandTrust fs cfg with
  | Except.error e => (Except.error e, [])
  | Except.ok () =>
    match run ids with
    | none => (Except.error ExecError.protocolError, [ExecEvent.spawned cfg.command cfg.args])
    | some resp =>
      (Except.ok (ids.map (fun i =>
        (i, match resp.values.lookup i with
            | some v => Except.ok v
            | none =>
              match resp.errors.lookup i with
              | some _ => Except.error ExecError.protocolError
              | none => Except.error ExecError.missingValue))),
       [ExecEvent.spawned cfg.command cfg.args])

/-! ## Keyring provider: unlock invocation

Modelled from the spec and the keyring provider test
(createKeyringSecretsProvider): the unlock step invokes a shell interpreter
`sh -c <script>` where the script text is fixed and references only the names
of the two environment variables `KEYCHAIN_PASS` and `KEYCHAIN_PATH`; the
actual password and keychain path travel in the child's environment block,
never in the argument vector. -/

/-- Keyring provider configuration. -/
structure KeyringConfig where
  keychainPassword : String
  keychainPath : String
deriving Repr

/-- A spawned child process: command, argument vector, environment block. -/
structure SpawnCall where
  cmd : String
  args : List String
  env : List (String × String)
deriving Repr

/-- The fixed unlock shell script: it names the two environment variables and
contains no configuration-dependent text. -/
def unlockScript : String :=
  "security unlock-keychain -p \"$KEYCHAIN_PASS\" \"$KEYCHAIN_PATH\""

/-- Modelled from the spec: the spawn performed by `ensureUnlocked()` of the
keyring provider.  The script is passed inline to `sh -c`; the password and
keychain path are placed in the child environment only. -/
def buildUnlockSpawn (cfg : KeyringConfig) : SpawnCall :=
  { cmd := "sh"
    args := ["-c", unlockScript]
    env := [("KEYCHAIN_PASS", cfg.keychainPassword),
            ("KEYCHAIN_PATH", cfg.keychainPath)] }

/-- The full argument list of a spawn as visible to process-listing tools:
the command name followed by every argument. -/
def SpawnCall.argv (c : SpawnCall) : List String :=
  c.cmd :: c.args

/-- Substring occurrence test on character lists: does `p` occur starting at
the head of `s`? -/
def startsWithChars : List Char → List Char → Bool
  | [], _ => true
  | _ :: _, [] => false
  | p :: ps, c :: cs => p = c && startsWithChars ps cs

/-- Substring occurrence test on character lists, at any position. -/
def occursInChars (p : List Char) : List Char → Bool
  | [] => p.isEmpty
  | c :: cs => startsWithChars p (c :: cs) || occursInChars p cs

/-- Substring occurrence test on strings: does `needle` occur in `hay`? -/
def occursIn (needle hay : String) : Bool :=
  occursInChars needle.data hay.data

/-! ## BatchResolver: strict mode

Modelled from the spec: in `strict` mode (startup, final activation) any
single unresolved ref aborts the whole call with the first error encountered
— a partially-resolved credential set must never become the active snapshot.
The per-ref resolution is abstracted as a function from refs to results. -/

/-- A resolution error surfaced by the batch resolver; the payload is the
message of the underlying provider error. -/
structure ResolveError where
  message : String
deriving DecidableEq, Repr

/-- Modelled from the spec: strict-mode `resolveAll`.  Refs are attempted in
order; the first error aborts the whole call, a fully successful run yields
the list of resolved pairs. -/
def resolveAllStrict (resolve : RawRef → Except ResolveError String) :
    List RawRef → Except ResolveError (List (RawRef × String))
  | [] => Except.ok []
  | r :: rest =>
    match resolve r with
    | Except.error e => Except.error e
    | Except.ok v =>
      match resolveAllStrict resolve rest with
      | Except.error e => Except.error e
      | Except.ok tail => Except.ok ((r, v) :: tail)

/-- The first error encountered when resolving the refs in order, if any. -/
def firstFailure (resolve : RawRef → Except ResolveError String) :
    List RawRef → Option ResolveError
  | [] => none
  | r :: rest =>
    match resolve r with
    | Except.error e => some e
    | Except.ok _ => firstFailure resolve rest

/-! ## SnapshotManager: activation state machine

Modelled from the spec: states `Uninitialized`, `Healthy`, `Degraded`.  A
successful `activate()` publishes the first snapshot and moves to `Healthy`;
a failing `activate()` propagates the error (startup abort).  `reload()` on
success atomically replaces the active snapshot and moves to (or stays in)
`Healthy`, emitting a one-shot `Recovered` event when leaving `Degraded`; on
failure it keeps the existing active snapshot, moves to `Degraded` and emits
a one-shot `Degraded` event when leaving `Healthy`, and emits nothing on
further failures while already `Degraded`.  `reload()` never surfaces an
exception: its type carries no error channel, only the new state and the
emitted events. -/

/-- An immutable credential snapshot: config field path to resolved value. -/
structure Snapshot where
  entries : List (String × String)
deriving DecidableEq, Repr

/-- Health state of the snapshot manager. -/
inductive ActivationState where
  | uninitialized
  | healthy
  | degraded
deriving DecidableEq, Repr

/-- One-shot transition signals emitted by the snapshot manager. -/
inductive MEvent where
  | degradedEvent
  | recoveredEvent
deriving DecidableEq, Repr

/-- The mutable state owned by the snapshot manager: the health state and the
active snapshot reference. -/
structure MState where
  activation : ActivationState
  active : Option Snapshot
deriving DecidableEq, Repr

/-- The initial state before any activation attempt. -/
def initialMState : MState :=
  { activation := ActivationState.uninitialized, active := none }

/-- Modelled from the spec: `activate()` applied to the outcome of a strict
resolution.  Success publishes the snapshot and moves to `Healthy`; failure
leaves the state untouched and propagates the error to the caller. -/
def activate (outcome : Except ResolveError Snapshot) (s : MState) :
    MState × Except ResolveError Unit :=
  match outcome with
  | Except.ok snap =>
    ({ activation := ActivationState.healthy, active := some snap }, Except.ok ())
  | Except.error e => (s, Except.error e)

/-- Modelled from the spec: `reload()` applied to the outcome of a strict
resolution.  Returns the new state and the list of emitted one-shot events;
there is no error channel (failures never escape to request-serving code). -/
def reload (outcome : Except ResolveError Snapshot) (s : MState) :
    MState × List MEvent :=
  match s.activation, outcome with
  | ActivationState.healthy, Except.ok snap =>
    ({ activation := ActivationState.healthy, active := some snap }, [])
  | ActivationState.healthy, Except.error _ =>
    ({ activation := ActivationState.degraded, active := s.active },
     [MEvent.degradedEvent])
  | ActivationState.degraded, Except.ok snap =>
    ({ activation := ActivationState.healthy, active := some snap },
     [MEvent.recoveredEvent])
  | ActivationState.degraded, Except.error _ => (s, [])
  | ActivationState.uninitialized, _ => (s, [])

/-- Run a sequence of `reload()` calls, collecting every emitted event. -/
def reloadMany (outcomes : List (Except ResolveError Snapshot)) (s : MState) :
    MState × List MEvent :=
  match outcomes with
  | [] => (s, [])
  | o :: rest =>
    let step := reload o s
    let tail := reloadMany rest step.1
    (tail.1, step.2 ++ tail.2)

/-- Turn a strict `resolveAll` outcome into a snapshot outcome: resolved
pairs become snapshot entries keyed by the ref id. -/
def outcomeToSnapshot (o : Except ResolveError (List (RawRef × String))) :
    Except ResolveError Snapshot :=
  match o with
  | Except.error e => Except.error e
  | Except.ok pairs => Except.ok ⟨pairs.map (fun p => (p.1.id, p.2))⟩

/-! ## Snapshot publication atomicity

Modelled from the spec: snapshot publication is a single atomic
pointer/reference swap; the active-snapshot reference is written exclusively
by the one in-flight `reload()` and read freely by concurrent readers.  An
execution is modelled as an arbitrary interleaving of atomic actions: reader
reads of the whole active reference, and the single publish action of the
in-flight reload.  The cell holds one whole snapshot at every step. -/

/-- One atomic action of the interleaved execution: a reader reading the
active-snapshot reference, or the reload publishing its new snapshot. -/
inductive RAction where
  | readSnap
  | publish
deriving DecidableEq, Repr

/-- The active snapshot after running a prefix of actions: `publish` swaps
the reference to `post`, reads leave it unchanged. -/
def stateAfter (post : Snapshot) : List RAction → Snapshot → Snapshot
  | [], cur => cur
  | RAction.publish :: rest, _ => stateAfter post rest post
  | RAction.readSnap :: rest, cur => stateAfter post rest cur

/-- The sequence of snapshots observed by the readers of an interleaving,
starting from active snapshot `cur`. -/
def observations (post : Snapshot) : List RAction → Snapshot → List Snapshot
  | [], _ => []
  | RAction.publish :: rest, _ => observations post rest post
  | RAction.readSnap :: rest, cur => cur :: observations post rest cur

/-! ## A JSON parser

Model of `JSON.parse` as used by `countTranscriptMessages` in
src/infra/session-message-count.ts: strict JSON grammar (RFC 8259), driven by
a fuel parameter large enough for any input of the given length.  Numbers are
kept as raw lexemes. -/

/-- Skip JSON whitespace: space, tab, line feed, carriage return. -/
def skipWs : List Char → List Char
  | [] => []
  | c :: cs =>
    if c = ' ' || c = '\t' || c = '\n' || c = '\r' then skipWs cs else c :: cs

/-- Value of one hexadecimal digit, by code point: digits are 48-57,
lower-case a-f are 97-102, upper-case A-F are 65-70. -/
def hexVal (c : Char) : Option Nat :=
  let n := c.toNat
  if 48 ≤ n && n ≤ 57 then some (n - 48)
  else if 97 ≤ n && n ≤ 102 then some (n - 87)
  else if 65 ≤ n && n ≤ 70 then some (n - 55)
  else none

/-- Parse the body of a JSON string after the opening quote, accumulating
decoded characters in reverse; returns the decoded characters and the rest of
the input after the closing quote. -/
def parseStrChars : List Char → List Char → Option (List Char × List Char)
  | [], _ => none
  | '"' :: rest, acc => some (acc.reverse, rest)
  | '\\' :: '"' :: rest, acc => parseStrChars rest ('"' :: acc)
  | '\\' :: '\\' :: rest, acc => parseStrChars rest ('\\' :: acc)
  | '\\' :: '/' :: rest, acc => parseStrChars rest ('/' :: acc)
  | '\\' :: 'b' :: rest, acc => parseStrChars rest (Char.ofNat 8 :: acc)
  | '\\' :: 'f' :: rest, acc => parseStrChars rest (Char.ofNat 12 :: acc)
  | '\\' :: 'n' :: rest, acc => parseStrChars rest ('\n' :: acc)
  | '\\' :: 'r' :: rest, acc => parseStrChars rest ('\r' :: acc)
  | '\\' :: 't' :: rest, acc => parseStrChars rest ('\t' :: acc)
  | '\\' :: 'u' :: a :: b :: c :: d :: rest, acc =>
    match hexVal a, hexVal b, hexVal c, hexVal d with
    | some ha, some hb, some hc, some hd =>
      parseStrChars rest (Char.ofNat (((ha * 16 + hb) * 16 + hc) * 16 + hd) :: acc)
    | _, _, _, _ => none
  | '\\' :: _, _ => none
  | c :: rest, acc => if c.toNat < 32 then none else parseStrChars rest (c :: acc)

/-- Take the longest prefix of decimal digits. -/
def takeDigits : List Char → List Char × List Char
  | [] => ([], [])
  | c :: cs =>
    if isDigitChar c then
      match takeDigits cs with
      | (ds, r) => (c :: ds, r)
    else ([], c :: cs)

/-- Parse the integer part of a JSON number: `0`, or a nonzero digit followed
by digits. -/
def parseIntPart : List Char → Option (List Char × List Char)
  | [] => none
  | c :: cs =>
    if c = '0' then some (['0'], cs)
    else if isDigitChar c then
      match takeDigits cs with
      | (ds, r) => some (c :: ds, r)
    else none

/-- Parse an optional fraction part `.digits`. -/
def parseFracPart : List Char → Option (List Char × List Char)
  | '.' :: cs =>
    match takeDigits cs with
    | ([], _) => none
    | (ds, r) => some ('.' :: ds, r)
  | cs => some ([], cs)

/-- Parse an optional exponent part `e[+-]digits` or `E[+-]digits`. -/
def parseExpPart (cs : List Char) : Option (List Char × List Char) :=
  match cs with
  | e :: rest =>
    if e = 'e' || e = 'E' then
      let signAndRest : List Char × List Char :=
        match rest with
        | '+' :: r => (['+'], r)
        | '-' :: r => (['-'], r)
        | r => ([], r)
      match takeDigits signAndRest.2 with
      | ([], _) => none
      | (ds, r) => some (e :: signAndRest.1 ++ ds, r)
    else some ([], cs)
  | [] => some ([], [])

/-- Parse a JSON number lexeme under the strict RFC 8259 grammar, returning
the lexeme and the rest of the input. -/
def parseNumLex (cs : List Char) : Option (List Char × List Char) :=
  let signAndRest : List Char × List Char :=
    match cs with
    | '-' :: r => (['-'], r)
    | r => ([], r)
  match parseIntPart signAndRest.2 with
  | none => none
  | some (ip, r1) =>
    match parseFracPart r1 with
    | none => none
    | some (fp, r2) =>
      match parseExpPart r2 with
      | none => none
      | some (ep, r3) => some (signAndRest.1 ++ ip ++ fp ++ ep, r3)

mutual

/-- Parse one JSON value; `fuel` bounds the recursion depth. -/
def parseVal : Nat → List Char → Option (Json × List Char)
  | 0, _ => none
  | Nat.succ fuel, cs =>
    match skipWs cs with
    | 'n' :: 'u' :: 'l' :: 'l' :: rest => some (Json.null, rest)
    | 't' :: 'r' :: 'u' :: 'e' :: rest => some (Json.bool true, rest)
    | 'f' :: 'a' :: 'l' :: 's' :: 'e' :: rest => some (Json.bool false, rest)
    | '"' :: rest =>
      match parseStrChars rest [] with
      | some (s, r) => some (Json.str (String.mk s), r)
      | none => none
    | '[' :: rest =>
      match skipWs rest with
      | ']' :: r => some (Json.arr [], r)
      | cs2 =>
        match parseItems fuel cs2 with
        | some (vs, r) => some (Json.arr vs, r)
        | none => none
    | '\x7b' :: rest =>
      match skipWs rest with
      | '\x7d' :: r => some (Json.obj [], r)
      | cs2 =>
        match parseFields fuel cs2 with
        | some (fs, r) => some (Json.obj fs, r)
        | none => none
    | rest =>
      match parseNumLex rest with
      | some (lex, r) => some (Json.num (String.mk lex), r)
      | none => none

/-- Parse a non-empty comma-separated list of array items up to `]`. -/
def parseItems : Nat → List Char → Option (List Json × List Char)
  | 0, _ => none
  | Nat.succ fuel, cs =>
    match parseVal fuel cs with
    | none => none
    | some (v, r1) =>
      match skipWs r1 with
      | ',' :: r2 =>
        match parseItems fuel (skipWs r2) with
        | some (vs, r3) => some (v :: vs, r3)
        | none => none
      | ']' :: r2 => some ([v], r2)
      | _ => none

/-- Parse a non-empty comma-separated list of object members up to the
closing brace. -/
def parseFields : Nat → List Char → Option (List (String × Json) × List Char)
  | 0, _ => none
  | Nat.succ fuel, cs =>
    match cs with
    | '"' :: r =>
      match parseStrChars r [] with
      | none => none
      | some (kcs, r1) =>
        match skipWs r1 with
        | ':' :: r2 =>
          match parseVal fuel (skipWs r2) with
          | none => none
          | some (v, r3) =>
            match skipWs r3 with
            | ',' :: r4 =>
              match parseFields fuel (skipWs r4) with
              | some (fs, r5) => some ((String.mk kcs, v) :: fs, r5)
              | none => none
            | '\x7d' :: r4 => some ([(String.mk kcs, v)], r4)
            | _ => none
        | _ => none
    | _ => none

end

/-- Model of `JSON.parse`: parse one value, require only whitespace after it. -/
def Json.parse (s : String) : Option Json :=
  match parseVal (2 * s.length + 8) s.data with
  | some (v, rest) => if (skipWs rest).isEmpty then some v else none
  | none => none

/-! ## countTranscriptMessages

Translated from src/infra/session-message-count.ts.  The filesystem is
modelled as a partial map from paths to readable contents: `none` stands for
a missing file or any read error (both are caught and yield 0 in the
source). -/

/-- Whitespace as trimmed by the blank-line test of the loop. -/
def isWsChar (c : Char) : Bool :=
  c = ' ' || c = '\t' || c = '\n' || c = '\r'

/-- Split a character list at every line feed, the model of
`content.split("\n")`. -/
def lineSplit : List Char → List (List Char)
  | [] => [[]]
  | c :: rest =>
    if c = '\n' then [] :: lineSplit rest
    else
      match lineSplit rest with
      | [] => [[c]]
      | s :: ss => (c :: s) :: ss

/-- The lines of a file's contents, the model of `content.split("\n")`. -/
def splitLines (s : String) : List String :=
  (lineSplit s.data).map String.mk

/-- Decision made by the loop body of `countTranscriptMessages` for one line:
blank lines (`!line.trim()`, i.e. all-whitespace lines) and lines that fail
`JSON.parse` contribute nothing, as do parsed values whose top-level `role`
is not the string `user` or `assistant`. -/
def lineCounts (line : String) : Bool :=
  if line.data.all isWsChar then false
  else
    match Json.parse line with
    | none => false
    | some j =>
      match j.getField "role" with
      | some (Json.str r) => r = "user" || r = "assistant"
      | _ => false

/-- Translated from `countTranscriptMessages(sessionFile?: string)`: returns
0 for an undefined or empty argument, 0 when the file does not exist or
cannot be read, and otherwise folds over the lines of the file counting the
ones accepted by `lineCounts`. -/
def countTranscriptMessages (fsRead : String → Option String)
    (sessionFile : Option String) : Nat :=
  match sessionFile with
  | none => 0
  | some p =>
    if p = "" then 0
    else
      match fsRead p with
      | none => 0
      | some content =>
        (splitLines content).foldl
          (fun count line => if lineCounts line then count + 1 else count) 0

/-- The transcript used by the countTranscriptMessages unit test: five JSONL
lines of which three carry a `role` of `user` or `assistant`. -/
def sampleTranscript : String :=
  "\x7b\"role\":\"system\",\"content\":\"you are helpful\"\x7d\n\x7b\"role\":\"user\",\"content\":\"hello\"\x7d\n\x7b\"role\":\"assistant\",\"content\":\"hi\"\x7d\n\x7b\"role\":\"user\",\"content\":\"bye\"\x7d\n\x7b\"role\":\"tool\",\"content\":\"result\"\x7d"

/-! ## Helper lemmas -/

theorem stringMkData (s : String) : String.mk s.data = s := by
  cases s
  rfl

theorem escSeg_no_slash (cs : List Char) : '/' ∉ escSeg cs := by
  induction cs with
  | nil => simp [escSeg]
  | cons c rest ih =>
    intro hmem
    by_cases h0 : c = '~'
    · simp [escSeg, h0] at hmem
      exact ih hmem
    · by_cases h1 : c = '/'
      · simp [escSeg, h0, h1] at hmem
        exact ih hmem
      · simp [escSeg, h0, h1] at hmem
        rcases hmem with h | h
        · exact h1 h.symm
        · exact ih h

theorem unescSeg_escSeg (cs : List Char) : unescSeg (escSeg cs) = some cs := by
  induction cs with
  | nil => simp [escSeg, unescSeg]
  | cons c rest ih =>
    by_cases h0 : c = '~'
    · simp [escSeg, h0, unescSeg, ih]
    · by_cases h1 : c = '/'
      · simp [escSeg, h0, h1, unescSeg, ih]
      · show unescSeg (escSeg (c :: rest)) = some (c :: rest)
        rw [escSeg]
        simp [h0, h1]
        rw [unescSeg.eq_def]
        simp [h0, ih]

theorem splitSegs_no_slash (cs : List Char) (h : '/' ∉ cs) : splitSegs cs = [cs] := by
  induction cs with
  | nil => simp [splitSegs]
  | cons c rest ih =>
    have hc : ¬ c = '/' := fun hc => h (hc ▸ List.mem_cons_self c rest)
    have hrest : '/' ∉ rest := fun hr => h (List.mem_cons_of_mem c hr)
    simp [splitSegs, hc, ih hrest]

theorem list_mapM_singleton (f : List Char → Option (List Char)) (x : List Char) :
    List.mapM f [x] = (f x).map (fun y => [y]) := by
  cases h : f x <;> simp [List.mapM, List.mapM.loop, h, Option.map]

theorem resolveEnv_reads_eq_filter (al : List String) (env : String → Option String)
    (ids : List String) :
    (resolveEnv ⟨some al⟩ env ids).2 = ids.filter (fun i => decide (i ∈ al)) := by
  induction ids with
  | nil => simp [resolveEnv]
  | cons i rest ih =>
    simp only [resolveEnv, List.map_cons, List.flatten_cons, resolveEnvOne] at ih ⊢
    by_cases hm : i ∈ al
    · cases henv : env i <;> simp [hm, henv, List.filter_cons, ih]
    · simp [hm, List.filter_cons, ih]

theorem reload_error_active (e : ResolveError) (s : MState) :
    (reload (Except.error e) s).1.active = s.active := by
  cases h : s.activation <;> simp [reload, h]

theorem reloadMany_allErrors (s : MState) (hdeg : s.activation = ActivationState.degraded)
    (outcomes : List (Except ResolveError Snapshot))
    (hall : ∀ o ∈ outcomes, ∃ er, o = Except.error er) :
    reloadMany outcomes s = (s, []) := by
  induction outcomes with
  | nil => simp [reloadMany]
  | cons o rest ih =>
    rcases hall o (List.mem_cons_self o rest) with ⟨er, rfl⟩
    have hstep : reload (Except.error er) s = (s, []) := by
      simp [reload, hdeg]
    simp [reloadMany, hstep, ih (fun o ho => hall o (List.mem_cons_of_mem _ ho))]

theorem observations_mem (post : Snapshot) (acts : List RAction) :
    ∀ cur obs, obs ∈ observations post acts cur → obs = cur ∨ obs = post := by
  induction acts with
  | nil =>
    intro cur obs h
    simp [observations] at h
  | cons a rest ih =>
    intro cur obs h
    cases a with
    | publish =>
      simp only [observations] at h
      rcases ih post obs h with h' | h'
      · exact Or.inr h'
      · exact Or.inr h'
    | readSnap =>
      simp only [observations, List.mem_cons] at h
      rcases h with rfl | h
      · exact Or.inl rfl
      · exact ih cur obs h

theorem stateAfter_mem (post : Snapshot) (acts : List RAction) :
    ∀ cur, stateAfter post acts cur = cur ∨ stateAfter post acts cur = post := by
  induction acts with
  | nil =>
    intro cur
    exact Or.inl rfl
  | cons a rest ih =>
    intro cur
    cases a with
    | publish =>
      simp only [stateAfter]
      rcases ih post with h | h
      · exact Or.inr h
      · exact Or.inr h
    | readSnap =>
      simp only [stateAfter]
      exact ih cur

theorem foldl_count_eq_countP (P : String → Bool) (l : List String) (n : Nat) :
    l.foldl (fun c x => if P x then c + 1 else c) n = n + l.countP P := by
  induction l generalizing n with
  | nil => simp
  | cons x rest ih =>
    by_cases hx : P x = true
    · simp [List.foldl_cons, List.countP_cons, hx, ih]
      omega
    · simp only [Bool.not_eq_true] at hx
      simp [List.foldl_cons, List.countP_cons, hx, ih]

/-! ## Claim theorems -/

/-- Claim C5: a SecretRef whose source is env, file or exec and whose provider
and id satisfy the source-specific rules is accepted by `validate`; a ref
violating a rule is rejected with a `ValidationError` naming the exact
offending field, checked in the order source, provider, id. -/
theorem validate_field_correctness (r : RawRef) :
    (validate r = Except.ok () ↔
      ∃ src, sourceKind r.source = some src ∧ providerOk r.provider = true
        ∧ idOkFor src r.id = true)
    ∧ (sourceKind r.source = none →
        ∃ reason, validate r = Except.error ⟨RefField.source, reason⟩)
    ∧ (∀ src, sourceKind r.source = some src → providerOk r.provider = false →
        ∃ reason, validate r = Except.error ⟨RefField.provider, reason⟩)
    ∧ (∀ src, sourceKind r.source = some src → providerOk r.provider = true →
        idOkFor src r.id = false →
        ∃ reason, validate r = Except.error ⟨RefField.id, reason⟩) := by
  cases hs : sourceKind r.source with
  | none =>
    refine ⟨⟨?_, ?_⟩, ?_, ?_, ?_⟩
    · intro h
      simp [validate, hs] at h
    · rintro ⟨src, hsrc, -⟩
      cases hsrc
    · intro _
      exact ⟨"unknown source", by simp [validate, hs]⟩
    · intro src hsrc
      cases hsrc
    · intro src hsrc
      cases hsrc
  | some src =>
    by_cases hp : providerOk r.provider = true
    · by_cases hi : idOkFor src r.id = true
      · refine ⟨⟨?_, ?_⟩, ?_, ?_, ?_⟩
        · intro _
          exact ⟨src, rfl, hp, hi⟩
        · intro _
          simp [validate, hs, hp, hi]
        · intro h
          cases h
        · intro src2 hsrc2 hp2
          rw [hp] at hp2
          cases hp2
        · intro src2 hsrc2 _ hi2
          obtain rfl : src = src2 := by injection hsrc2
          rw [hi] at hi2
          cases hi2
      · rw [Bool.not_eq_true] at hi
        refine ⟨⟨?_, ?_⟩, ?_, ?_, ?_⟩
        · intro h
          simp [validate, hs, hp, hi] at h
        · rintro ⟨src2, hsrc2, -, hi2⟩
          obtain rfl : src = src2 := by injection hsrc2
          rw [hi] at hi2
          cases hi2
        · intro h
          cases h
        · intro src2 hsrc2 hp2
          rw [hp] at hp2
          cases hp2
        · intro src2 hsrc2 _ _
          exact ⟨"id does not match the rule for this source", by simp [validate, hs, hp, hi]⟩
    · rw [Bool.not_eq_true] at hp
      refine ⟨⟨?_, ?_⟩, ?_, ?_, ?_⟩
      · intro h
        simp [validate, hs, hp] at h
      · rintro ⟨src2, hsrc2, hp2, -⟩
        rw [hp] at hp2
        cases hp2
      · intro h
        cases h
      · intro src2 hsrc2 _
        exact ⟨"provider does not match the required pattern", by simp [validate, hs, hp]⟩
      · intro src2 hsrc2 hp2 _
        rw [hp] at hp2
        cases hp2

/-- Witness for claim C5 at the concrete refs of the documentation. -/
theorem validate_field_correctness_witness :
    validate ⟨"env", "default", "OPENAI_API_KEY"⟩ = Except.ok ()
    ∧ (∃ reason, validate ⟨"keyring", "default", "X"⟩
        = Except.error ⟨RefField.source, reason⟩) :=
  ⟨(validate_field_correctness ⟨"env", "default", "OPENAI_API_KEY"⟩).1.mpr
      ⟨Source.env, by decide, by decide, by decide⟩,
   (validate_field_correctness ⟨"keyring", "default", "X"⟩).2.1 (by decide)⟩

/-- Claim C6: an RFC6901 pointer segment built by escaping an arbitrary key
(including keys containing the tilde and slash characters) parses back to the
original key, and the pointer resolves against a document mapping that key to
a scalar value to exactly that value. -/
theorem rfc6901_escape_roundtrip (key : String) (v : Json) (hscalar : v.isScalar = true) :
    parsePointer (String.mk ('/' :: escSeg key.data)) = some [key]
    ∧ resolveFilePointer (Json.obj [(key, v)]) (String.mk ('/' :: escSeg key.data)) = some v := by
  have hsplit : splitSegs (escSeg key.data) = [escSeg key.data] :=
    splitSegs_no_slash _ (escSeg_no_slash _)
  have hparse : parsePointer (String.mk ('/' :: escSeg key.data)) = some [key] := by
    show ((splitSegs (escSeg key.data)).mapM unescSeg).map (List.map String.mk) = some [key]
    rw [hsplit, list_mapM_singleton, unescSeg_escSeg]
    simp [stringMkData]
  refine ⟨hparse, ?_⟩
  simp [resolveFilePointer, hparse, resolveTokens, lookupLast, hscalar]

/-- Witness for claim C6 at the key `a~/b`. -/
theorem rfc6901_escape_roundtrip_witness :
    parsePointer (String.mk ('/' :: escSeg "a~/b".data)) = some ["a~/b"]
    ∧ resolveFilePointer (Json.obj [("a~/b", Json.str "sk-f")])
        (String.mk ('/' :: escSeg "a~/b".data)) = some (Json.str "sk-f") :=
  rfc6901_escape_roundtrip "a~/b" (Json.str "sk-f") rfl

/-- Claim C8: with an allowlist configured, the Env provider resolves ids not
in the allowlist to `NotAllowedError` without reading the environment (the
read log stays empty), allowed ids with a missing or empty variable to
`MissingValueError`, and allowed ids with a non-empty variable to its value;
the batch result maps every id accordingly and the variables read are exactly
the allowed ids. -/
theorem env_provider_resolution (al : List String) (env : String → Option String)
    (ids : List String) (i : String) :
    (resolveEnv ⟨some al⟩ env ids).1 =
      ids.map (fun j => (j,
        if j ∈ al then
          match env j with
          | none => Except.error EnvError.missingValue
          | some v =>
            if v = "" then Except.error EnvError.missingValue else Except.ok v
        else Except.error EnvError.notAllowed))
    ∧ (resolveEnv ⟨some al⟩ env ids).2 = ids.filter (fun j => decide (j ∈ al))
    ∧ (i ∉ al → resolveEnvOne ⟨some al⟩ env i = (Except.error EnvError.notAllowed, []))
    ∧ (i ∉ al → i ∉ (resolveEnv ⟨some al⟩ env ids).2)
    ∧ (i ∈ al → env i = none →
        resolveEnvOne ⟨some al⟩ env i = (Except.error EnvError.missingValue, [i]))
    ∧ (i ∈ al → env i = some "" →
        resolveEnvOne ⟨some al⟩ env i = (Except.error EnvError.missingValue, [i]))
    ∧ (i ∈ al → ∀ v, env i = some v → v ≠ "" →
        resolveEnvOne ⟨some al⟩ env i = (Except.ok v, [i])) := by
  refine ⟨?_, resolveEnv_reads_eq_filter al env ids, ?_, ?_, ?_, ?_, ?_⟩
  · simp only [resolveEnv]
    apply List.map_congr_left
    intro j _
    by_cases hm : j ∈ al
    · cases henv : env j <;> simp [resolveEnvOne, hm, henv]
    · simp [resolveEnvOne, hm]
  · intro hm
    simp [resolveEnvOne, hm]
  · intro hm hmem
    rw [resolveEnv_reads_eq_filter] at hmem
    rcases List.mem_filter.mp hmem with ⟨-, hdec⟩
    exact hm (of_decide_eq_true hdec)
  · intro hm henv
    simp [resolveEnvOne, hm, henv]
  · intro hm henv
    simp [resolveEnvOne, hm, henv]
  · intro hm v henv hv
    simp [resolveEnvOne, hm, henv, hv]

/-- Witness for claim C8 at the end-to-end scenario A configuration. -/
theorem env_provider_resolution_witness :
    resolveEnvOne ⟨some ["OPENAI_API_KEY"]⟩
        (fun n => if n = "OPENAI_API_KEY" then some "sk-test" else none)
        "OPENAI_API_KEY" = (Except.ok "sk-test", ["OPENAI_API_KEY"])
    ∧ resolveEnvOne ⟨some ["OPENAI_API_KEY"]⟩
        (fun n => if n = "OPENAI_API_KEY" then some "sk-test" else none)
        "SOME_OTHER_KEY" = (Except.error EnvError.notAllowed, []) := by
  have h1 := env_provider_resolution ["OPENAI_API_KEY"]
    (fun n => if n = "OPENAI_API_KEY" then some "sk-test" else none)
    ["OPENAI_API_KEY"] "OPENAI_API_KEY"
  have h2 := env_provider_resolution ["OPENAI_API_KEY"]
    (fun n => if n = "OPENAI_API_KEY" then some "sk-test" else none)
    ["OPENAI_API_KEY"] "SOME_OTHER_KEY"
  exact ⟨h1.2.2.2.2.2.2 (by decide) "sk-test" (by decide) (by decide),
         h2.2.2.1 (by decide)⟩

/-- Claim C7: with `allowSymlinkCommand = false` and a symlinked command
path, exec resolution fails with `SymlinkNotTrustedError` and its event list
contains no `spawned` event: no subprocess is ever spawned. -/
theorem exec_symlink_no_spawn (fs : FsView) (cfg : ExecProviderConfig)
    (run : List String → Option ExecResponse) (ids : List String)
    (hsym : fs.isSymlink cfg.command = true)
    (hallow : cfg.allowSymlinkCommand = false) :
    (resolveExec fs cfg run ids).1 = Except.error ExecError.symlinkNotTrusted
    ∧ (resolveExec fs cfg run ids).2 = []
    ∧ ∀ c a, ExecEvent.spawned c a ∉ (resolveExec fs cfg run ids).2 := by
  have htrust : checkCommandTrust fs cfg = Except.error ExecError.symlinkNotTrusted := by
    simp [checkCommandTrust, hsym, hallow]
  refine ⟨?_, ?_, ?_⟩
  · simp [resolveExec, htrust]
  · simp [resolveExec, htrust]
  · intro c a hmem
    simp [resolveExec, htrust] at hmem

/-- Witness for claim C7 at a concrete symlinked command path. -/
theorem exec_symlink_no_spawn_witness :
    (resolveExec ⟨fun _ => true, fun q => q⟩ ⟨"/opt/homebrew/bin/op", [], false, []⟩
        (fun _ => none) ["value"]).1 = Except.error ExecError.symlinkNotTrusted
    ∧ (resolveExec ⟨fun _ => true, fun q => q⟩ ⟨"/opt/homebrew/bin/op", [], false, []⟩
        (fun _ => none) ["value"]).2 = [] := by
  have h := exec_symlink_no_spawn ⟨fun _ => true, fun q => q⟩
    ⟨"/opt/homebrew/bin/op", [], false, []⟩ (fun _ => none) ["value"] rfl rfl
  exact ⟨h.1, h.2.1⟩

/-- Claim C1 counterexample: for the keychain password `sh`, the literal
password string does occur in an element of the spawned argument vector (the
command name itself is `sh`), so the claim as stated — that for any password
the literal string appears in no argv element — is false. -/
theorem keyring_password_in_argv_cex :
    ¬ (∀ e ∈ (buildUnlockSpawn ⟨"sh", "/tmp/test.keychain-db"⟩).argv,
        occursIn "sh" e = false) := by
  decide

/-- Claim C1 (amended): the spawned unlock argument vector is the fixed list
`sh, -c, unlockScript`, independent of the password and keychain path; the
password is delivered only under the `KEYCHAIN_PASS` key of the child
environment and the keychain path only under `KEYCHAIN_PATH`; the script
references the two variables only by name.  Hence varying the password leaves
the spawned argv unchanged, and a password can appear in an argv element only
by coinciding with that fixed text. -/
theorem keyring_unlock_env_delivery (pass path : String) :
    (buildUnlockSpawn ⟨pass, path⟩).argv = ["sh", "-c", unlockScript]
    ∧ (buildUnlockSpawn ⟨pass, path⟩).env =
        [("KEYCHAIN_PASS", pass), ("KEYCHAIN_PATH", path)]
    ∧ (∀ k v, (k, v) ∈ (buildUnlockSpawn ⟨pass, path⟩).env →
        (k = "KEYCHAIN_PASS" ∧ v = pass) ∨ (k = "KEYCHAIN_PATH" ∧ v = path))
    ∧ occursIn "$KEYCHAIN_PASS" unlockScript = true
    ∧ occursIn "$KEYCHAIN_PATH" unlockScript = true := by
  refine ⟨rfl, rfl, ?_, by decide, by decide⟩
  intro k v hmem
  simp [buildUnlockSpawn] at hmem
  rcases hmem with ⟨hk, hv⟩ | ⟨hk, hv⟩
  · exact Or.inl ⟨hk, hv⟩
  · exact Or.inr ⟨hk, hv⟩

/-- Witness for claim C1 at the password of the regression test. -/
theorem keyring_unlock_env_delivery_witness :
    (buildUnlockSpawn ⟨"hunter2", "/tmp/test.keychain-db"⟩).argv
      = ["sh", "-c", unlockScript]
    ∧ (buildUnlockSpawn ⟨"hunter2", "/tmp/test.keychain-db"⟩).env
      = [("KEYCHAIN_PASS", "hunter2"), ("KEYCHAIN_PATH", "/tmp/test.keychain-db")]
    ∧ occursIn "$KEYCHAIN_PASS" unlockScript = true
    ∧ occursIn "$KEYCHAIN_PATH" unlockScript = true := by
  have h := keyring_unlock_env_delivery "hunter2" "/tmp/test.keychain-db"
  exact ⟨h.1, h.2.1, h.2.2.2.1, h.2.2.2.2⟩

/-- Claim C2: when any ref in the set fails to resolve, strict-mode
`resolveAll` has a first error, returns that first error as the failure of
the whole call, and feeding the failed outcome to the snapshot manager leaves
the active snapshot unchanged — no snapshot is published. -/
theorem strict_resolveAll_first_error (resolve : RawRef → Except ResolveError String)
    (refs : List RawRef) (s : MState) :
    ((∃ r ∈ refs, ∃ er, resolve r = Except.error er) →
      ∃ e, firstFailure resolve refs = some e)
    ∧ (∀ e, firstFailure resolve refs = some e →
        resolveAllStrict resolve refs = Except.error e
        ∧ (reload (outcomeToSnapshot (resolveAllStrict resolve refs)) s).1.active
            = s.active) := by
  constructor
  · rintro ⟨r, hr, er, her⟩
    induction refs with
    | nil => cases hr
    | cons hd tl ih =>
      cases hhd : resolve hd with
      | error e0 => exact ⟨e0, by simp [firstFailure, hhd]⟩
      | ok v =>
        rcases List.mem_cons.mp hr with rfl | htl
        · rw [hhd] at her
          cases her
        · rcases ih htl with ⟨e, he⟩
          exact ⟨e, by simp [firstFailure, hhd, he]⟩
  · intro e hfirst
    have hstrict : resolveAllStrict resolve refs = Except.error e := by
      induction refs with
      | nil => simp [firstFailure] at hfirst
      | cons hd tl ih =>
        cases hhd : resolve hd with
        | error e0 =>
          simp [firstFailure, hhd] at hfirst
          simp [resolveAllStrict, hhd, hfirst]
        | ok v =>
          simp [firstFailure, hhd] at hfirst
          simp [resolveAllStrict, hhd, ih hfirst]
    refine ⟨hstrict, ?_⟩
    rw [hstrict]
    exact reload_error_active e s

/-- Witness for claim C2 at a one-ref set whose resolution fails. -/
theorem strict_resolveAll_first_error_witness :
    resolveAllStrict (fun _ => Except.error ⟨"env var OPENAI_API_KEY missing"⟩)
        [⟨"env", "default", "OPENAI_API_KEY"⟩]
      = Except.error ⟨"env var OPENAI_API_KEY missing"⟩
    ∧ (reload (outcomeToSnapshot (resolveAllStrict
          (fun _ => Except.error ⟨"env var OPENAI_API_KEY missing"⟩)
          [⟨"env", "default", "OPENAI_API_KEY"⟩]))
        ⟨ActivationState.healthy, some ⟨[("k", "v")]⟩⟩).1.active
      = some ⟨[("k", "v")]⟩ := by
  have h := (strict_resolveAll_first_error
    (fun _ => Except.error ⟨"env var OPENAI_API_KEY missing"⟩)
    [⟨"env", "default", "OPENAI_API_KEY"⟩]
    ⟨ActivationState.healthy, some ⟨[("k", "v")]⟩⟩).2
    ⟨"env var OPENAI_API_KEY missing"⟩ rfl
  exact ⟨h.1, h.2⟩

/-- Claim C3: from `Uninitialized` a successful `activate()` yields
`Healthy`; a failing `reload()` from `Healthy` yields `Degraded` emitting
exactly one `Degraded` event, and any run of further failing reloads while
`Degraded` emits no events at all (also stated as a combined run starting
with the first failure); a succeeding `reload()` from `Degraded` yields
`Healthy` emitting exactly one `Recovered` event. -/
theorem snapshot_state_machine_events (s : MState) (snap : Snapshot) (e : ResolveError)
    (outcomes : List (Except ResolveError Snapshot)) :
    (s.activation = ActivationState.uninitialized →
      (activate (Except.ok snap) s).1.activation = ActivationState.healthy
      ∧ (activate (Except.ok snap) s).1.active = some snap)
    ∧ (s.activation = ActivationState.healthy →
        reload (Except.error e) s =
          ({ activation := ActivationState.degraded, active := s.active },
           [MEvent.degradedEvent]))
    ∧ (s.activation = ActivationState.degraded →
        (∀ o ∈ outcomes, ∃ er, o = Except.error er) →
        reloadMany outcomes s = (s, []))
    ∧ (s.activation = ActivationState.healthy →
        (∀ o ∈ outcomes, ∃ er, o = Except.error er) →
        reloadMany (Except.error e :: outcomes) s =
          ({ activation := ActivationState.degraded, active := s.active },
           [MEvent.degradedEvent]))
    ∧ (s.activation = ActivationState.degraded →
        reload (Except.ok snap) s =
          ({ activation := ActivationState.healthy, active := some snap },
           [MEvent.recoveredEvent])) := by
  refine ⟨?_, ?_, ?_, ?_, ?_⟩
  · intro _
    exact ⟨rfl, rfl⟩
  · intro hh
    simp [reload, hh]
  · intro hdeg hall
    exact reloadMany_allErrors s hdeg outcomes hall
  · intro hh hall
    have hstep : reload (Except.error e) s =
        ({ activation := ActivationState.degraded, active := s.active },
         [MEvent.degradedEvent]) := by
      simp [reload, hh]
    have hrest : reloadMany outcomes
        { activation := ActivationState.degraded, active := s.active } =
        ({ activation := ActivationState.degraded, active := s.active }, []) :=
      reloadMany_allErrors _ rfl outcomes hall
    simp [reloadMany, hstep, hrest]
  · intro hdeg
    simp [reload, hdeg]

/-- Witness for claim C3 along a concrete activate, fail, fail, fail,
recover run. -/
theorem snapshot_state_machine_events_witness :
    (activate (Except.ok ⟨[("k", "v1")]⟩) initialMState).1.activation
      = ActivationState.healthy
    ∧ reload (Except.error ⟨"fail1"⟩) ⟨ActivationState.healthy, some ⟨[("k", "v1")]⟩⟩
      = (⟨ActivationState.degraded, some ⟨[("k", "v1")]⟩⟩, [MEvent.degradedEvent])
    ∧ reloadMany [Except.error ⟨"fail2"⟩, Except.error ⟨"fail3"⟩]
        ⟨ActivationState.degraded, some ⟨[("k", "v1")]⟩⟩
      = (⟨ActivationState.degraded, some ⟨[("k", "v1")]⟩⟩, [])
    ∧ reload (Except.ok ⟨[("k", "v2")]⟩) ⟨ActivationState.degraded, some ⟨[("k", "v1")]⟩⟩
      = (⟨ActivationState.healthy, some ⟨[("k", "v2")]⟩⟩, [MEvent.recoveredEvent]) := by
  have h1 := snapshot_state_machine_events initialMState ⟨[("k", "v1")]⟩ ⟨"fail1"⟩ []
  have h2 := snapshot_state_machine_events ⟨ActivationState.healthy, some ⟨[("k", "v1")]⟩⟩
    ⟨[("k", "v1")]⟩ ⟨"fail1"⟩ []
  have h3 := snapshot_state_machine_events ⟨ActivationState.degraded, some ⟨[("k", "v1")]⟩⟩
    ⟨[("k", "v2")]⟩ ⟨"fail1"⟩ [Except.error ⟨"fail2"⟩, Except.error ⟨"fail3"⟩]
  refine ⟨(h1.1 rfl).1, h2.2.1 rfl, h3.2.2.1 rfl ?_, h3.2.2.2.2 rfl⟩
  intro o ho
  rcases List.mem_cons.mp ho with rfl | ho2
  · exact ⟨⟨"fail2"⟩, rfl⟩
  · rcases List.mem_cons.mp ho2 with rfl | ho3
    · exact ⟨⟨"fail3"⟩, rfl⟩
    · cases ho3

/-- Claim C4: a failing `reload()` from `Healthy` or `Degraded` leaves the
active snapshot reference — and hence every entry inside it — unchanged, and
moves the activation state to `Degraded`; `reload` has no error channel, so
no exception reaches request-serving code. -/
theorem reload_failure_frame (e : ResolveError) (s : MState)
    (h : s.activation = ActivationState.healthy ∨ s.activation = ActivationState.degraded) :
    (reload (Except.error e) s).1.active = s.active
    ∧ (reload (Except.error e) s).1.activation = ActivationState.degraded
    ∧ (∀ snap, s.active = some snap →
        (reload (Except.error e) s).1.active = some snap
        ∧ ((reload (Except.error e) s).1.active.map Snapshot.entries)
            = some snap.entries) := by
  rcases h with h | h
  · refine ⟨?_, ?_, ?_⟩
    · simp [reload, h]
    · simp [reload, h]
    · intro snap hsnap
      simp [reload, h, hsnap]
  · refine ⟨?_, ?_, ?_⟩
    · simp [reload, h]
    · simp [reload, h]
    · intro snap hsnap
      simp [reload, h, hsnap]

/-- Witness for claim C4 at a concrete healthy state. -/
theorem reload_failure_frame_witness :
    (reload (Except.error ⟨"provider down"⟩)
        ⟨ActivationState.healthy, some ⟨[("models.providers.openai.apiKey", "sk-test")]⟩⟩).1.active
      = some ⟨[("models.providers.openai.apiKey", "sk-test")]⟩
    ∧ (reload (Except.error ⟨"provider down"⟩)
        ⟨ActivationState.healthy, some ⟨[("models.providers.openai.apiKey", "sk-test")]⟩⟩).1.activation
      = ActivationState.degraded := by
  have h := reload_failure_frame ⟨"provider down"⟩
    ⟨ActivationState.healthy, some ⟨[("models.providers.openai.apiKey", "sk-test")]⟩⟩
    (Or.inl rfl)
  exact ⟨h.1, h.2.1⟩

/-- Claim C9: for any interleaving of reader actions with the publish action
of a single in-flight reload, every reader observes either the whole
pre-reload snapshot or the whole post-reload snapshot, never a mixture, and
the reachable state always holds exactly one whole snapshot. -/
theorem snapshot_publication_atomic (pre post : Snapshot) (acts : List RAction)
    (hone : acts.count RAction.publish ≤ 1) :
    (∀ obs ∈ observations post acts pre, obs = pre ∨ obs = post)
    ∧ (stateAfter post acts pre = pre ∨ stateAfter post acts pre = post) :=
  ⟨fun obs h => observations_mem post acts pre obs h, stateAfter_mem post acts pre⟩

/-- Witness for claim C9 at a concrete read-publish-read interleaving. -/
theorem snapshot_publication_atomic_witness :
    ((⟨[("k", "old")]⟩ : Snapshot) = ⟨[("k", "old")]⟩ ∨ (⟨[("k", "old")]⟩ : Snapshot) = ⟨[("k", "new")]⟩)
    ∧ (stateAfter ⟨[("k", "new")]⟩ [RAction.readSnap, RAction.publish, RAction.readSnap]
          ⟨[("k", "old")]⟩ = ⟨[("k", "old")]⟩
        ∨ stateAfter ⟨[("k", "new")]⟩ [RAction.readSnap, RAction.publish, RAction.readSnap]
          ⟨[("k", "old")]⟩ = ⟨[("k", "new")]⟩) := by
  have h := snapshot_publication_atomic ⟨[("k", "old")]⟩ ⟨[("k", "new")]⟩
    [RAction.readSnap, RAction.publish, RAction.readSnap] (by decide)
  exact ⟨h.1 ⟨[("k", "old")]⟩ (by decide), h.2⟩

/-- Claim C10: `countTranscriptMessages` is total; it returns 0 for an
undefined or empty path and for an unreadable file, and otherwise returns
exactly the number of non-blank lines that parse as JSON with a top-level
`role` of `user` or `assistant`; the result never exceeds the line count. -/
theorem countTranscriptMessages_correct (fsRead : String → Option String)
    (p content : String) :
    countTranscriptMessages fsRead none = 0
    ∧ countTranscriptMessages fsRead (some "") = 0
    ∧ (fsRead p = none → countTranscriptMessages fsRead (some p) = 0)
    ∧ (p ≠ "" → fsRead p = some content →
        countTranscriptMessages fsRead (some p)
          = (splitLines content).countP lineCounts
        ∧ countTranscriptMessages fsRead (some p)
          ≤ (splitLines content).length) := by
  refine ⟨rfl, rfl, ?_, ?_⟩
  · intro hnone
    by_cases hp : p = ""
    · simp [countTranscriptMessages, hp]
    · simp [countTranscriptMessages, hp, hnone]
  · intro hp hsome
    have hcount : countTranscriptMessages fsRead (some p)
        = (splitLines content).countP lineCounts := by
      simp only [countTranscriptMessages, hp, hsome, if_neg hp]
      exact foldl_count_eq_countP lineCounts (splitLines content) 0 |>.trans (Nat.zero_add _)
    exact ⟨hcount, hcount ▸ List.countP_le_length lineCounts⟩

/-- Witness for claim C10 at the transcript of the unit test, counting 3
messages. -/
theorem countTranscriptMessages_correct_witness :
    countTranscriptMessages (fun _ => some sampleTranscript) (some "/tmp/session.jsonl")
      = (splitLines sampleTranscript).countP lineCounts
    ∧ countTranscriptMessages (fun _ => some sampleTranscript) (some "/tmp/session.jsonl")
      ≤ (splitLines sampleTranscript).length
    ∧ countTranscriptMessages (fun _ => some sampleTranscript) (some "/tmp/session.jsonl") = 3 := by
  have h := (countTranscriptMessages_correct (fun _ => some sampleTranscript)
    "/tmp/session.jsonl" sampleTranscript).2.2.2 (by decide) rfl
  refine ⟨h.1, h.2, ?_⟩
  rw [h.1]
  decide

